import Mathlib

/-!
Verification of the email-deliverability pipeline of `email_verifier.py`
(class `EmailVerifier`).  Addresses are modelled as lists of characters
(`Str`), the network world (DNS answers, SMTP server behaviour) as an
explicit environment `Env`, and every Python `try/except` as the total
function it computes.  Every definition is translated from the source file;
line numbers in comments refer to `src/email_verifier.py`.
-/

/-- Python strings, as lists of characters. -/
abbrev Str := List Char

/-! ## Character helpers (Python `str.lower`, `str.strip`) -/

/-- ASCII lowering of one character, the effect of Python `str.lower` on the
characters that occur here: `A`..`Z` (codes 65-90) map to `a`..`z`, everything
else is unchanged. -/
def lowerChar (c : Char) : Char :=
  if 65 ≤ c.toNat ∧ c.toNat ≤ 90 then Char.ofNat (c.toNat + 32) else c

/-- Python `email.lower()` (line 128 and line 52). -/
def pyLower (s : Str) : Str := s.map lowerChar

/-- Whitespace test used by Python `str.strip()` (ASCII subset). -/
def isSpaceChar (c : Char) : Bool := c.isWhitespace

/-- Python `s.strip()`: remove leading and trailing whitespace (line 128). -/
def pyStrip (s : Str) : Str :=
  ((s.dropWhile isSpaceChar).reverse.dropWhile isSpaceChar).reverse

/-- Everything after the first `'@'` of a string. -/
def afterAtSign (s : Str) : Str := (s.dropWhile (fun c => c ≠ '@')).drop 1

/-- Python `email.split('@')[1]` (lines 74 and 129): the segment between the
first and the second `'@'` (to the end when there is no second one). -/
def pyDomain (s : Str) : Str := (afterAtSign s).takeWhile (fun c => c ≠ '@')

/-! ## The format regex (line 51) -/

/-- Character class `[a-zA-Z0-9._%+-]` of the local part. -/
def localChar (c : Char) : Bool :=
  c.isAlpha || c.isDigit || c = '.' || c = '_' || c = '%' || c = '+' || c = '-'

/-- Character class `[a-zA-Z0-9.-]` of the domain part. -/
def domChar (c : Char) : Bool :=
  c.isAlpha || c.isDigit || c = '.' || c = '-'

/-- Matcher for the tail regex `[a-zA-Z0-9.-]+\.[a-zA-Z]{2,}$`.  A successful
backtracking match must place the literal dot at the LAST dot of the string
(the final class `[a-zA-Z]{2,}$` admits no dot), so the string matches iff it
splits at its last dot into a nonempty `[a-zA-Z0-9.-]` block and at least two
letters. -/
def regexDomainTail (dom : Str) : Bool :=
  match dom.reverse.dropWhile (fun c => c ≠ '.') with
  | [] => false
  | _ :: arev =>
    let a := arev.reverse
    let b := (dom.reverse.takeWhile (fun c => c ≠ '.')).reverse
    !a.isEmpty && a.all domChar && decide (2 ≤ b.length) && b.all Char.isAlpha

/-- Matcher for `^[a-zA-Z0-9._%+-]+@[a-zA-Z0-9.-]+\.[a-zA-Z]{2,}$` against the
whole string.  Both classes exclude `'@'`, so the pattern's `@` must consume
the first `'@'` of the string. -/
def regexCore (x : Str) : Bool :=
  match x.dropWhile (fun c => c ≠ '@') with
  | [] => false
  | _ :: dom =>
    let loc := x.takeWhile (fun c => c ≠ '@')
    !loc.isEmpty && loc.all localChar && regexDomainTail dom

/-- `validate_email_format` (lines 49-52): `re.match(pattern, email.lower())`.
Python's `$` anchor also matches just before one trailing newline, hence the
second disjunct. -/
def validate_email_format (email : Str) : Bool :=
  let x := pyLower email
  regexCore x ||
    (match x.reverse with
      | [] => false
      | c :: rest => c = '\n' && regexCore rest.reverse)

/-! ## The network environment -/

/-- Behaviour of the outside world during one SMTP probe of one address
(`test_smtp_connection`, lines 72-103).  `none` / `false` in a field means the
corresponding Python call raised an exception. -/
structure SmtpEnv where
  /-- Result of `resolver.resolve(domain, 'MX')` inside the probe (line 78):
  the primary exchanger's name, or `none` when resolution raised. -/
  resolveMX : Option Str
  /-- Whether `server.connect(mx_record, 25)` (line 86) succeeded. -/
  connectOk : Bool
  /-- Whether `server.helo(...)` (line 87) returned without raising
  (its reply code is ignored by the source). -/
  heloOk : Bool
  /-- Reply code of `server.mail(...)` (line 90), `none` when it raised. -/
  mailReply : Option Nat
  /-- Reply code of `server.rcpt(email)` (line 95), `none` when it raised. -/
  rcptReply : Option Nat
  /-- Whether the final `server.quit()` (line 96) returned without raising. -/
  quitOk : Bool
deriving DecidableEq

/-- The fixed network world of one run: DNS answers per domain and SMTP
behaviour per probed address. -/
structure Env where
  /-- Whether `resolver.resolve(domain, 'A')` yields at least one record
  (`check_domain_exists`, lines 63-70; exceptions collapse to `false`). -/
  aRecord : Str → Bool
  /-- Whether `resolver.resolve(domain, 'MX')` yields at least one record
  (`check_domain_mx_record`, lines 54-61; exceptions collapse to `false`). -/
  mxRecord : Str → Bool
  /-- SMTP world seen when probing a given address. -/
  smtp : Str → SmtpEnv

/-- `check_domain_exists` (lines 63-70): the `try/except` returns `False` on
any resolver exception, so it is exactly the environment's A-record bit. -/
def check_domain_exists (env : Env) (domain : Str) : Bool := env.aRecord domain

/-- `check_domain_mx_record` (lines 54-61). -/
def check_domain_mx_record (env : Env) (domain : Str) : Bool := env.mxRecord domain

/-! ## The SMTP probe (lines 72-103) -/

/-- Boolean outcome of the body of `test_smtp_connection`.  Every exception
anywhere in the `try` block is caught at lines 101-103 and becomes `false`;
the function itself never raises on an address containing `'@'`. -/
def probeResult (s : SmtpEnv) : Bool :=
  match s.resolveMX with
  | none => false
  | some _ =>
    if s.connectOk = false then false
    else if s.heloOk = false then false
    else
      match s.mailReply with
      | none => false
      | some code =>
        if code ≠ 250 then false
        else
          match s.rcptReply with
          | none => false
          | some code2 =>
            if s.quitOk = false then false
            else decide (code2 = 250 ∨ code2 = 251)

/-- SMTP commands that could appear on the wire. -/
inductive SmtpCmd where
  | helo
  | mailFrom
  | rcptTo
  | dataCmd
  | quit
deriving DecidableEq

/-- The sequence of SMTP commands `test_smtp_connection` emits in a given
world: `helo` (line 87), `mail` (line 90), then either `quit` + abort on a
non-250 reply (lines 91-93) or `rcpt` (line 95) followed by `quit` (line 96).
A command is listed when it is issued, even if reading its reply then
raises. -/
def probeTrace (s : SmtpEnv) : List SmtpCmd :=
  match s.resolveMX with
  | none => []
  | some _ =>
    if s.connectOk = false then []
    else if s.heloOk = false then [SmtpCmd.helo]
    else
      match s.mailReply with
      | none => [SmtpCmd.helo, SmtpCmd.mailFrom]
      | some code =>
        if code ≠ 250 then [SmtpCmd.helo, SmtpCmd.mailFrom, SmtpCmd.quit]
        else
          match s.rcptReply with
          | none => [SmtpCmd.helo, SmtpCmd.mailFrom, SmtpCmd.rcptTo]
          | some _ => [SmtpCmd.helo, SmtpCmd.mailFrom, SmtpCmd.rcptTo, SmtpCmd.quit]

/-- `test_smtp_connection(self, email)` (lines 72-103). -/
def test_smtp_connection (env : Env) (email : Str) : Bool :=
  probeResult (env.smtp email)

/-! ## Reputation classifier (lines 105-121) and external-call traces -/

/-- External network calls the pipeline can issue, for auditing which stages
ran. -/
inductive ExtCall where
  | dnsA (domain : Str)
  | dnsMX (domain : Str)
  | smtpProbe (email : Str)
deriving DecidableEq

/-- `self.trusted_turkish_domains` (lines 43-47), a set literal; order is
irrelevant for the membership tests performed on it. -/
def trusted_turkish_domains : List Str :=
  ["gmail.com", "hotmail.com", "yahoo.com", "outlook.com",
   "turk.net", "superonline.com", "mynet.com", "ttnet.net.tr",
   "com.tr", "net.tr", "org.tr", "info.tr", "biz.tr"].map String.toList

/-- `self.disposable_domains` (lines 37-40). -/
def disposable_domains : List Str :=
  ["10minutemail.com", "guerrillamail.com", "mailinator.com",
   "tempmail.org", "throwaway.email", "example.com", "test.com"].map String.toList

/-- `check_domain_reputation` (lines 105-121), together with the DNS calls it
issues.  Line 109 is `any(trusted in domain for trusted in ...)`: Python
substring containment, `t <:+: domain` here.  Line 113 is set membership
(exact equality).  The fallback (line 117) performs one A-record lookup. -/
def check_domain_reputation (env : Env) (domain : Str) : Bool × List ExtCall :=
  if trusted_turkish_domains.any (fun t => decide (t <:+: domain)) then (true, [])
  else if disposable_domains.any (fun t => t = domain) then (false, [])
  else (check_domain_exists env domain, [ExtCall.dnsA domain])

/-- DNS/SMTP traffic of one `test_smtp_connection` call: the MX re-resolution
of line 78 always happens; the TCP probe itself only when it succeeded. -/
def smtpCalls (env : Env) (email domain : Str) : List ExtCall :=
  match (env.smtp email).resolveMX with
  | none => [ExtCall.dnsMX domain]
  | some _ => [ExtCall.dnsMX domain, ExtCall.smtpProbe email]

/-! ## Verification pipeline (lines 123-162) -/

/-- Steps 1-5 of `verify_email_comprehensive` on the already-normalized
address (lines 129-162), returning the verdict together with the external
calls issued.  At step 5 the `except` arm of lines 159-162 (which would
return "200") is unreachable: `test_smtp_connection` catches every exception
itself and returns `False`, so the embedded step 5 is the bare conditional of
lines 153-158. -/
def verifyCore (env : Env) (e : Str) : String × List ExtCall :=
  let domain := pyDomain e
  if validate_email_format e = false then ("BAD", [])
  else if check_domain_exists env domain = false then ("BAD", [ExtCall.dnsA domain])
  else if check_domain_mx_record env domain = false then
    ("BAD", [ExtCall.dnsA domain, ExtCall.dnsMX domain])
  else
    let rep := check_domain_reputation env domain
    if rep.1 = false then ("BAD", [ExtCall.dnsA domain, ExtCall.dnsMX domain] ++ rep.2)
    else
      let calls := [ExtCall.dnsA domain, ExtCall.dnsMX domain] ++ rep.2 ++ smtpCalls env e domain
      if test_smtp_connection env e then ("200", calls) else ("BAD", calls)

/-- `verify_email_comprehensive` (lines 123-162): the guard of line 125 on the
raw input, then normalization `email.lower().strip()` (line 128) and the
staged checks. -/
def verify_email_comprehensive (env : Env) (email : Str) : String × List ExtCall :=
  if email = [] ∨ '@' ∉ email then ("BAD", [])
  else verifyCore env (pyStrip (pyLower email))

/-! ## Batch orchestrator (lines 164-242) -/

/-- `verify_email_batch` (lines 164-179): sequential verification of a chunk.
The per-address `try/except` (lines 168-177) is invisible here because the
embedded `verify_email_comprehensive` is total. -/
def verify_email_batch (env : Env) (batch : List Str) : List String :=
  batch.map (fun e => (verify_email_comprehensive env e).1)

/-- Fuel-indexed chunking; the fuel only forces termination and is always
instantiated with the list length. -/
def chunksAux : Nat → List Str → List (List Str)
  | 0, _ => []
  | _, [] => []
  | fuel + 1, e :: rest => ((e :: rest).take 50) :: chunksAux fuel ((e :: rest).drop 50)

/-- The batch split of line 201: `[emails[i:i+50] for i in range(0, len, 50)]`. -/
def pyChunks (emails : List Str) : List (List Str) := chunksAux emails.length emails

/-- The `as_completed` collection loop (lines 213-224).  `order` is the order
in which the chunk futures complete (a permutation of the chunk indices);
`fails j = true` models chunk `j`'s worker dying with an unhandled error, in
which case line 224 appends one "BAD" per candidate of that chunk.  Results
are appended in COMPLETION order, exactly as `all_results.extend` does. -/
def collectInOrder (env : Env) (batches : List (List Str)) (fails : Nat → Bool)
    (order : List Nat) : List String :=
  (order.map (fun j =>
    let batch := batches.getD j []
    if fails j then List.replicate batch.length "BAD" else verify_email_batch env batch)).flatten

/-- One company record: an ordered field-name/value map (`csv.DictReader`
row). -/
abbrev Record := List (String × String)

/-- Python `company.get(key, default-absent)` as an `Option`. -/
def getField (r : Record) (k : String) : Option String :=
  (r.find? (fun p => p.1 = k)).map (fun p => p.2)

/-- Whether the record already has a field named `k`. -/
def hasField (r : Record) (k : String) : Bool := r.any (fun p => p.1 = k)

/-- Python dict assignment `company[k] = v`: overwrite in place when the key
exists, otherwise append the new key at the end (insertion order). -/
def setField (r : Record) (k v : String) : Record :=
  if hasField r k then r.map (fun p => if p.1 = k then (k, v) else p)
  else r ++ [(k, v)]

/-- The annotation loop of lines 227-231: record `i` receives
`all_results[i]` when `i < len(all_results)` and "BAD" otherwise — exactly
`results.getD i "BAD"`. -/
def annotateFrom (results : List String) : Nat → List Record → List Record
  | _, [] => []
  | i, c :: cs =>
    setField c "email_verification" (results.getD i "BAD") :: annotateFrom results (i + 1) cs

/-- `verify_all_emails` (lines 192-242).  The returned pair carries the
updated records and the `(verified_count, bad_count)` tallies of lines
234-235.  The `Except.error` branch is the `ZeroDivisionError` raised by the
success-rate log of line 240 (`verified_count / len(all_results)`) when
`all_results` is empty, which aborts the call before it returns. -/
def verify_all_emails (env : Env) (fails : Nat → Bool) (order : List Nat)
    (companies : List Record) : Except Unit (List Record × Nat × Nat) :=
  let emails := companies.map (fun c => ((getField c "email").getD "").toList)
  let batches := pyChunks emails
  let all_results := collectInOrder env batches fails order
  let companies' := annotateFrom all_results 0 companies
  let verified_count := all_results.count "200"
  let bad_count := all_results.count "BAD"
  if all_results.length = 0 then Except.error ()
  else Except.ok (companies', verified_count, bad_count)

/-! ## Character-level lemmas -/

lemma toNat_ofNat_of_small {n : Nat} (h : n < 55296) : (Char.ofNat n).toNat = n := by
  have hv : n.isValidChar := Or.inl h
  rw [Char.ofNat, dif_pos hv]
  simp [Char.ofNatAux, Char.toNat, UInt32.toNat]

lemma toNat_lowerChar_of_upper {c : Char} (h : 65 ≤ c.toNat ∧ c.toNat ≤ 90) :
    (lowerChar c).toNat = c.toNat + 32 := by
  rw [lowerChar, if_pos h]
  exact toNat_ofNat_of_small (by omega)

lemma lowerChar_of_not_upper {c : Char} (h : ¬(65 ≤ c.toNat ∧ c.toNat ≤ 90)) :
    lowerChar c = c := if_neg h

lemma char_eq_iff_toNat {a b : Char} : a = b ↔ a.toNat = b.toNat := by
  constructor
  · rintro rfl; rfl
  · intro h; exact Char.ext (UInt32.toNat.inj h)

lemma lowerChar_eq_low {t : Char} (ht : t.toNat < 65) (c : Char) :
    lowerChar c = t ↔ c = t := by
  constructor
  · intro h
    by_cases hc : 65 ≤ c.toNat ∧ c.toNat ≤ 90
    · have h2 := toNat_lowerChar_of_upper hc
      rw [h] at h2
      omega
    · rwa [lowerChar_of_not_upper hc] at h
  · rintro rfl
    exact lowerChar_of_not_upper (by omega)

lemma lowerChar_idem (c : Char) : lowerChar (lowerChar c) = lowerChar c := by
  by_cases hc : 65 ≤ c.toNat ∧ c.toNat ≤ 90
  · have h1 := toNat_lowerChar_of_upper hc
    exact lowerChar_of_not_upper (by omega)
  · rw [lowerChar_of_not_upper hc]
    exact lowerChar_of_not_upper hc

lemma isSpaceChar_iff {c : Char} :
    isSpaceChar c = true ↔ (c.toNat = 32 ∨ c.toNat = 9 ∨ c.toNat = 13 ∨ c.toNat = 10) := by
  have h1 : (' ' : Char).toNat = 32 := rfl
  have h2 : ('\t' : Char).toNat = 9 := rfl
  have h3 : ('\r' : Char).toNat = 13 := rfl
  have h4 : ('\n' : Char).toNat = 10 := rfl
  simp [isSpaceChar, Char.isWhitespace, char_eq_iff_toNat, h1, h2, h3, h4]
  tauto

lemma isSpaceChar_lowerChar (c : Char) : isSpaceChar (lowerChar c) = isSpaceChar c := by
  by_cases hc : 65 ≤ c.toNat ∧ c.toNat ≤ 90
  · have h1 := toNat_lowerChar_of_upper hc
    have hA : isSpaceChar (lowerChar c) = false := by
      rw [← Bool.not_eq_true, isSpaceChar_iff]
      omega
    have hB : isSpaceChar c = false := by
      rw [← Bool.not_eq_true, isSpaceChar_iff]
      omega
    rw [hA, hB]
  · rw [lowerChar_of_not_upper hc]

/-! ## List-level helper lemmas -/

lemma dropWhile_head_false {α : Type} {p : α → Bool} :
    ∀ {l : List α} {c : α} {t : List α}, l.dropWhile p = c :: t → p c = false := by
  intro l
  induction l with
  | nil => intro c t h; simp [List.dropWhile] at h
  | cons a l ih =>
    intro c t h
    rw [List.dropWhile_cons] at h
    by_cases ha : p a = true
    · rw [if_pos ha] at h; exact ih h
    · rw [if_neg ha] at h
      cases h
      exact Bool.not_eq_true _ |>.mp ha

lemma dropWhile_dropWhile {α : Type} (p : α → Bool) (l : List α) :
    (l.dropWhile p).dropWhile p = l.dropWhile p := by
  cases h : l.dropWhile p with
  | nil => simp
  | cons c t =>
    have hc := dropWhile_head_false h
    rw [List.dropWhile_cons, if_neg (by simp [hc])]

lemma dropWhile_map' {α β : Type} (f : α → β) (p : β → Bool) (l : List α) :
    (l.map f).dropWhile p = (l.dropWhile (fun c => p (f c))).map f := by
  rw [List.dropWhile_map]
  rfl

lemma pyLower_idem (s : Str) : pyLower (pyLower s) = pyLower s := by
  simp only [pyLower, List.map_map]
  exact List.map_congr_left (fun c _ => lowerChar_idem c)

lemma mem_pyLower_low {t : Char} (ht : t.toNat < 65) (s : Str) :
    t ∈ pyLower s ↔ t ∈ s := by
  simp only [pyLower, List.mem_map]
  constructor
  · rintro ⟨c, hc, h⟩
    rw [lowerChar_eq_low ht] at h
    exact h ▸ hc
  · intro h
    exact ⟨t, h, (lowerChar_eq_low ht t).mpr rfl⟩

lemma count_pyLower_low {t : Char} (ht : t.toNat < 65) (s : Str) :
    (pyLower s).count t = s.count t := by
  simp only [pyLower]
  rw [List.count_eq_countP, List.count_eq_countP, List.countP_map]
  apply List.countP_congr
  intro c _
  simp only [Function.comp_apply, beq_iff_eq]
  exact ⟨fun h => (lowerChar_eq_low ht c).mp h, fun h => (lowerChar_eq_low ht c).mpr h⟩

lemma pyStrip_eq_dropWhile (l : Str) :
    l.dropWhile isSpaceChar =
      pyStrip l ++ ((l.dropWhile isSpaceChar).reverse.takeWhile isSpaceChar).reverse := by
  conv_lhs => rw [← List.reverse_reverse (l.dropWhile isSpaceChar),
    ← List.takeWhile_append_dropWhile (p := isSpaceChar) (l := (l.dropWhile isSpaceChar).reverse)]
  rw [List.reverse_append]
  rfl

lemma mem_pyStrip {a : Char} (ha : isSpaceChar a = false) (l : Str) :
    a ∈ pyStrip l ↔ a ∈ l := by
  constructor
  · intro h
    have h1 : a ∈ l.dropWhile isSpaceChar := by
      rw [pyStrip_eq_dropWhile l]; exact List.mem_append_left _ h
    rw [← List.takeWhile_append_dropWhile (p := isSpaceChar) (l := l)]
    exact List.mem_append_right _ h1
  · intro h
    have h1 : a ∈ l.dropWhile isSpaceChar := by
      rw [← List.takeWhile_append_dropWhile (p := isSpaceChar) (l := l)] at h
      rcases List.mem_append.mp h with h3 | h3
      · have h4 := List.mem_takeWhile_imp h3
        rw [h4] at ha; cases ha
      · exact h3
    rw [pyStrip_eq_dropWhile l] at h1
    rcases List.mem_append.mp h1 with h3 | h3
    · exact h3
    · exfalso
      have h4 := List.mem_takeWhile_imp (List.mem_reverse.mp h3)
      rw [h4] at ha; cases ha

lemma dropWhile_pyStrip (l : Str) : (pyStrip l).dropWhile isSpaceChar = pyStrip l := by
  cases hs : pyStrip l with
  | nil => simp
  | cons c t =>
    have hm := pyStrip_eq_dropWhile l
    rw [hs, List.cons_append] at hm
    have hc : isSpaceChar c = false := dropWhile_head_false hm
    rw [List.dropWhile_cons, if_neg (by simp [hc])]

lemma reverse_pyStrip_dropWhile (l : Str) :
    (pyStrip l).reverse.dropWhile isSpaceChar = (pyStrip l).reverse := by
  have h : (pyStrip l).reverse = (l.dropWhile isSpaceChar).reverse.dropWhile isSpaceChar := by
    simp [pyStrip]
  rw [h]
  exact dropWhile_dropWhile _ _

lemma pyStrip_idem (l : Str) : pyStrip (pyStrip l) = pyStrip l := by
  conv_lhs => rw [pyStrip]
  rw [dropWhile_pyStrip, reverse_pyStrip_dropWhile, List.reverse_reverse]

lemma pyStrip_pyLower_comm (l : Str) : pyStrip (pyLower l) = pyLower (pyStrip l) := by
  have hws : (fun c => isSpaceChar (lowerChar c)) = isSpaceChar := funext isSpaceChar_lowerChar
  simp only [pyStrip, pyLower, dropWhile_map', hws, List.reverse_map]

lemma pyNorm_fixed (l : Str) :
    pyStrip (pyLower (pyLower (pyStrip l))) = pyLower (pyStrip l) := by
  rw [pyLower_idem, pyStrip_pyLower_comm, pyStrip_idem]

lemma mem_norm_at (l : Str) : '@' ∈ pyLower (pyStrip l) ↔ '@' ∈ l := by
  rw [mem_pyLower_low (by decide), mem_pyStrip (by decide)]

/-- C10: for every environment and every address string, the pipeline's
result (verdict and issued calls) is unchanged when the address is replaced
by its normalization with whitespace stripped and letters lower-cased —
`verify_email_comprehensive` normalizes with `email.lower().strip()` (line
128) before any check, and the line-125 guard is itself invariant under that
normalization. -/
theorem c10_normalization_invariance (env : Env) (e : Str) :
    verify_email_comprehensive env e =
      verify_email_comprehensive env (pyLower (pyStrip e)) := by
  by_cases h : e = [] ∨ '@' ∉ e
  · have hn : pyLower (pyStrip e) = [] ∨ '@' ∉ pyLower (pyStrip e) := by
      rcases h with h | h
      · left; rw [h]; rfl
      · right; rw [mem_norm_at]; exact h
    simp only [verify_email_comprehensive]
    rw [if_pos h, if_pos hn]
  · have hat : '@' ∈ e := by
      push_neg at h
      exact h.2
    have hn : ¬(pyLower (pyStrip e) = [] ∨ '@' ∉ pyLower (pyStrip e)) := by
      push_neg
      have hm : '@' ∈ pyLower (pyStrip e) := (mem_norm_at e).mpr hat
      exact ⟨List.ne_nil_of_mem hm, hm⟩
    simp only [verify_email_comprehensive]
    rw [if_neg h, if_neg hn, pyNorm_fixed, pyStrip_pyLower_comm]

/-! ## Structure of successful regex matches -/

lemma regexDomainTail_struct {dom : Str} (h : regexDomainTail dom = true) :
    ∃ a b : Str, dom = a ++ '.' :: b ∧ (∀ c ∈ a, domChar c = true) ∧
      (∀ c ∈ b, c.isAlpha = true) := by
  unfold regexDomainTail at h
  split at h
  · cases h
  · next c arev heq =>
    have hc : c = '.' := by simpa using dropWhile_head_false heq
    subst hc
    have hsplit := List.takeWhile_append_dropWhile (p := fun c => c ≠ '.') (l := dom.reverse)
    rw [heq] at hsplit
    set t := dom.reverse.takeWhile (fun c => c ≠ '.') with ht
    have hdom : dom = arev.reverse ++ '.' :: t.reverse := by
      have h2 : (t ++ '.' :: arev).reverse = dom := by
        rw [hsplit, List.reverse_reverse]
      rw [← h2, List.reverse_append, List.reverse_cons, List.append_assoc,
        List.singleton_append]
    simp only [Bool.and_eq_true, List.all_eq_true, decide_eq_true_eq] at h
    obtain ⟨⟨⟨-, hA⟩, -⟩, hB⟩ := h
    exact ⟨arev.reverse, t.reverse, hdom, hA, hB⟩

lemma regexCore_struct {x : Str} (h : regexCore x = true) :
    ∃ loc dom : Str, x = loc ++ '@' :: dom ∧ '@' ∉ loc ∧ '@' ∉ dom ∧ '.' ∈ dom := by
  unfold regexCore at h
  split at h
  · cases h
  · next hd dom heq =>
    have hhd : hd = '@' := by simpa using dropWhile_head_false heq
    subst hhd
    have hsplit := List.takeWhile_append_dropWhile (p := fun c => c ≠ '@') (l := x)
    rw [heq] at hsplit
    simp only [Bool.and_eq_true] at h
    obtain ⟨a, b, hdom, ha, hb⟩ := regexDomainTail_struct h.2
    refine ⟨x.takeWhile (fun c => c ≠ '@'), dom, hsplit.symm, ?_, ?_, ?_⟩
    · intro hmem
      have h3 := List.mem_takeWhile_imp hmem
      simp at h3
    · rw [hdom]
      intro hmem
      rcases List.mem_append.mp hmem with h1 | h1
      · exact absurd (ha _ h1) (by decide)
      · rcases List.mem_cons.mp h1 with h2 | h2
        · exact absurd h2 (by decide)
        · exact absurd (hb _ h2) (by decide)
    · rw [hdom]
      exact List.mem_append_right _ (List.mem_cons_self _ _)

lemma count_at_of_struct {x loc dom : Str} (hx : x = loc ++ '@' :: dom)
    (hloc : '@' ∉ loc) (hdom : '@' ∉ dom) : x.count '@' = 1 := by
  subst hx
  rw [List.count_append, List.count_cons_self,
    List.count_eq_zero.mpr hloc, List.count_eq_zero.mpr hdom]

lemma afterAtSign_of_struct {x loc dom : Str} (hx : x = loc ++ '@' :: dom)
    (hloc : '@' ∉ loc) : afterAtSign x = dom := by
  subst hx
  have hall : ∀ a ∈ loc, ((fun c => (c ≠ '@' : Bool)) a : Prop) := by
    intro a ha
    simp only [ne_eq, decide_eq_true_eq]
    intro hEq
    exact hloc (hEq ▸ ha)
  rw [afterAtSign, List.dropWhile_append_of_pos hall, List.dropWhile_cons,
    if_neg (by simp)]
  rfl

lemma pred_at_lowerChar :
    (fun c => (decide (lowerChar c ≠ '@'))) = (fun c => (decide (c ≠ '@'))) := by
  funext c
  rw [decide_eq_decide]
  exact not_congr (lowerChar_eq_low (by decide) c)

lemma afterAtSign_pyLower (s : Str) : afterAtSign (pyLower s) = pyLower (afterAtSign s) := by
  simp only [afterAtSign, pyLower, dropWhile_map']
  rw [show (fun c => ((fun c => (c ≠ '@' : Bool)) (lowerChar c))) = (fun c => (c ≠ '@' : Bool))
    from pred_at_lowerChar]
  rw [List.map_drop]

lemma validate_struct {e : Str} (h : validate_email_format e = true) :
    e.count '@' = 1 ∧ '.' ∈ afterAtSign e := by
  unfold validate_email_format at h
  rw [Bool.or_eq_true] at h
  have key : ∀ loc dom : Str, pyLower e = loc ++ '@' :: dom → '@' ∉ loc → '@' ∉ dom →
      '.' ∈ dom → e.count '@' = 1 ∧ '.' ∈ afterAtSign e := by
    intro loc dom hx hloc hdom hdot
    constructor
    · rw [← count_pyLower_low (by decide) e]
      exact count_at_of_struct hx hloc hdom
    · have h1 : afterAtSign (pyLower e) = dom := afterAtSign_of_struct hx hloc
      rw [afterAtSign_pyLower] at h1
      rw [← mem_pyLower_low (by decide) (afterAtSign e), h1]
      exact hdot
  rcases h with h | h
  · obtain ⟨loc, dom, hx, hloc, hdom, hdot⟩ := regexCore_struct h
    exact key loc dom hx hloc hdom hdot
  · split at h
    · cases h
    · next c rest heq =>
      simp only [Bool.and_eq_true, decide_eq_true_eq] at h
      obtain ⟨hc, hcore⟩ := h
      subst hc
      have hx : pyLower e = rest.reverse ++ ['\n'] := by
        have h2 := congrArg List.reverse heq
        rw [List.reverse_reverse] at h2
        rw [h2, List.reverse_cons]
      obtain ⟨loc, dom, hy, hloc, hdom, hdot⟩ := regexCore_struct hcore
      have hx2 : pyLower e = loc ++ '@' :: (dom ++ ['\n']) := by
        rw [hx, hy, List.append_assoc, List.cons_append]
      have hdom2 : '@' ∉ dom ++ ['\n'] := by
        intro hmem
        rcases List.mem_append.mp hmem with h1 | h1
        · exact hdom h1
        · rcases List.mem_cons.mp h1 with h2 | h2
          · exact absurd h2 (by decide)
          · cases h2
      exact key loc (dom ++ ['\n']) hx2 hloc hdom2 (List.mem_append_left _ hdot)

/-! ## Concrete worlds used for witnesses and counterexamples -/

/-- A world where every DNS lookup fails and every SMTP operation raises. -/
def envNone : Env :=
  ⟨fun _ => false, fun _ => false, fun _ => ⟨none, false, false, none, none, false⟩⟩

/-- A fully healthy world: DNS resolves everywhere and the probed server
answers 250 at every step. -/
def envAll : Env :=
  ⟨fun _ => true, fun _ => true,
   fun _ => ⟨some ("mx.host".toList), true, true, some 250, some 250, true⟩⟩

/-- Like `envAll` except the TCP connection of line 86 cannot be established:
the SMTP probe fails at the network level while all DNS answers are
healthy. -/
def envConnFail : Env :=
  ⟨fun _ => true, fun _ => true,
   fun _ => ⟨some ("mx.host".toList), false, false, none, none, false⟩⟩

/-- C8: `validate_email_format` rejects every address that does not contain
exactly one at-sign or whose domain part (the segment after the first
at-sign) contains no dot; it accepts the well-formed user@sub.domain.tld;
and whenever the format check rejects the normalized address, the pipeline
returns "BAD" having issued no DNS or SMTP call. -/
theorem c8_format_gate :
    (∀ e : Str, (e.count '@' ≠ 1 ∨ '.' ∉ afterAtSign e) →
      validate_email_format e = false) ∧
    validate_email_format ("user@sub.domain.tld".toList) = true ∧
    (∀ (env : Env) (email : Str),
      validate_email_format (pyStrip (pyLower email)) = false →
      verify_email_comprehensive env email = ("BAD", [])) := by
  refine ⟨?_, by decide, ?_⟩
  · intro e h
    by_contra hv
    rw [Bool.not_eq_false] at hv
    obtain ⟨h1, h2⟩ := validate_struct hv
    rcases h with h | h
    · exact h h1
    · exact h h2
  · intro env email hval
    rw [verify_email_comprehensive]
    by_cases hpre : email = [] ∨ '@' ∉ email
    · rw [if_pos hpre]
    · rw [if_neg hpre]
      simp only [verifyCore]
      rw [if_pos hval]

/-- Witness for C8: a concrete address without an at-sign is rejected by the
format check, and the pipeline maps a concrete format-rejected address to
"BAD" with an empty call trace. -/
theorem c8_format_gate_witness :
    validate_email_format ("no-at-sign".toList) = false ∧
    verify_email_comprehensive envNone ("bad".toList) = ("BAD", []) := by
  constructor
  · exact c8_format_gate.1 ("no-at-sign".toList) (Or.inl (by decide))
  · exact c8_format_gate.2.2 envNone ("bad".toList) (by decide)

/-- C7: in the SMTP probe (with the exchange reaching each reply without an
exception), a MAIL FROM reply other than 250 aborts the probe with the
rejected outcome, and after RCPT TO exactly the reply codes 250 and 251
yield the accepted outcome. -/
theorem c7_smtp_reply_code_mapping (s : SmtpEnv)
    (hmx : s.resolveMX.isSome = true) (hconn : s.connectOk = true)
    (hhelo : s.heloOk = true) :
    (∀ c : Nat, s.mailReply = some c → c ≠ 250 → probeResult s = false) ∧
    (∀ c : Nat, s.mailReply = some 250 → s.rcptReply = some c → s.quitOk = true →
      (probeResult s = true ↔ (c = 250 ∨ c = 251))) := by
  obtain ⟨mx, hmx2⟩ := Option.isSome_iff_exists.mp hmx
  constructor
  · intro c hmail hc
    simp [probeResult, hmx2, hconn, hhelo, hmail, hc]
  · intro c hmail hrcpt hquit
    simp [probeResult, hmx2, hconn, hhelo, hmail, hrcpt, hquit]

/-- Witness for C7 at two concrete server behaviours: a 550 MAIL FROM reply
is rejected, and a 251 RCPT TO reply is accepted. -/
theorem c7_smtp_reply_code_mapping_witness :
    probeResult ⟨some ("mx.host".toList), true, true, some 550, none, true⟩ = false ∧
    (probeResult ⟨some ("mx.host".toList), true, true, some 250, some 251, true⟩ = true ↔
      ((251 : Nat) = 250 ∨ (251 : Nat) = 251)) := by
  constructor
  · exact (c7_smtp_reply_code_mapping
      ⟨some ("mx.host".toList), true, true, some 550, none, true⟩ rfl rfl rfl).1
      550 rfl (by decide)
  · exact (c7_smtp_reply_code_mapping
      ⟨some ("mx.host".toList), true, true, some 250, some 251, true⟩ rfl rfl rfl).2
      251 rfl rfl rfl

/-- C4 counterexample: the probe DOES send QUIT — both when MAIL FROM
returns a non-250 code (line 92) and after RCPT TO (line 96) — refuting the
claim that no QUIT is ever sent. -/
theorem c4_quit_counterexample :
    SmtpCmd.quit ∈ probeTrace ⟨some ("mx.host".toList), true, true, some 550, none, true⟩ ∧
    SmtpCmd.quit ∈ probeTrace ⟨some ("mx.host".toList), true, true, some 250, some 250, true⟩ := by
  decide

/-- C4 (amended): in every world the probe emits a subsequence of
HELO, MAIL FROM, RCPT TO, QUIT — in that order — and never a DATA
command. -/
theorem c4_commands_bounded (env : Env) (e : Str) :
    (probeTrace (env.smtp e)).count SmtpCmd.dataCmd = 0 ∧
    List.Sublist (probeTrace (env.smtp e))
      [SmtpCmd.helo, SmtpCmd.mailFrom, SmtpCmd.rcptTo, SmtpCmd.quit] := by
  have main : ∀ s : SmtpEnv, probeTrace s = [] ∨ probeTrace s = [SmtpCmd.helo] ∨
      probeTrace s = [SmtpCmd.helo, SmtpCmd.mailFrom] ∨
      probeTrace s = [SmtpCmd.helo, SmtpCmd.mailFrom, SmtpCmd.quit] ∨
      probeTrace s = [SmtpCmd.helo, SmtpCmd.mailFrom, SmtpCmd.rcptTo] ∨
      probeTrace s = [SmtpCmd.helo, SmtpCmd.mailFrom, SmtpCmd.rcptTo, SmtpCmd.quit] := by
    intro s
    obtain ⟨mx, conn, hl, ml, rc, qt⟩ := s
    cases mx with
    | none => exact Or.inl rfl
    | some m =>
      cases conn
      · exact Or.inl rfl
      · cases hl
        · exact Or.inr (Or.inl rfl)
        · cases ml with
          | none => exact Or.inr (Or.inr (Or.inl rfl))
          | some code =>
            by_cases hcode : code = 250
            · subst hcode
              cases rc with
              | none => exact Or.inr (Or.inr (Or.inr (Or.inr (Or.inl rfl))))
              | some code2 => exact Or.inr (Or.inr (Or.inr (Or.inr (Or.inr rfl))))
            · refine Or.inr (Or.inr (Or.inr (Or.inl ?_)))
              simp [probeTrace, hcode]
  rcases main (env.smtp e) with h | h | h | h | h | h <;> rw [h] <;> exact ⟨rfl, by decide⟩

/-- C1 (evaluation at the failing input): for a concrete address whose
format, domain-existence, MX and reputation checks all pass, a network-level
SMTP probe failure (the connection cannot be established) yields verdict
"BAD", not "200".  The optimistic fallback of lines 159-162 is unreachable
for network faults because `test_smtp_connection` catches the exception
itself (lines 101-103) and returns `False`, which line 158 maps to "BAD".
The second conjunct shows the identical world with a healthy SMTP server
yields "200", i.e. every stage before the probe passes. -/
theorem c1_network_failure_yields_bad :
    (verify_email_comprehensive envConnFail ("a@b.cd".toList)).1 = "BAD" ∧
    (verify_email_comprehensive envAll ("a@b.cd".toList)).1 = "200" := by
  decide

/-- C3 counterexample: the domain gmail.com.evil.net merely CONTAINS the
allow-list entry gmail.com as an interior substring — it neither equals nor
is a suffix of any entry's occurrence — yet `check_domain_reputation`
classifies it Trusted (returns true, issuing no DNS call) even in a world
where no domain resolves at all. -/
theorem c3_substring_counterexample :
    check_domain_reputation envNone ("gmail.com.evil.net".toList) = (true, []) ∧
    ¬ (∃ t ∈ trusted_turkish_domains,
        "gmail.com.evil.net".toList = t ∨ t <:+ "gmail.com.evil.net".toList) := by
  decide

/-- C3 (amended): the classifier decides Trusted — i.e. returns true with no
deny-list test and no DNS fallback, uniformly in every world — exactly when
some allow-list entry occurs as a contiguous substring anywhere in the
domain (Python `trusted in domain`, line 109).  Equality and suffix matches
are special cases; interior occurrences also qualify. -/
theorem c3_trusted_iff_substring (d : Str) :
    (∀ env : Env, check_domain_reputation env d = (true, [])) ↔
      (∃ t ∈ trusted_turkish_domains, t <:+: d) := by
  constructor
  · intro h
    by_contra hno
    have h1 := h envNone
    have hc1 : ¬ (trusted_turkish_domains.any (fun t => decide (t <:+: d)) = true) := by
      rw [List.any_eq_true]
      simp only [decide_eq_true_eq]
      exact hno
    rw [check_domain_reputation, if_neg hc1] at h1
    by_cases hd : disposable_domains.any (fun t => t = d) = true
    · rw [if_pos hd] at h1
      simp at h1
    · rw [if_neg hd] at h1
      simp [check_domain_exists, envNone] at h1
  · intro hex env
    have hc1 : trusted_turkish_domains.any (fun t => decide (t <:+: d)) = true := by
      rw [List.any_eq_true]
      simpa using hex
    rw [check_domain_reputation, if_pos hc1]

/-! ## Orchestrator lemmas -/

lemma chunksAux_flatten : ∀ (fuel : Nat) (l : List Str), l.length ≤ fuel →
    (chunksAux fuel l).flatten = l := by
  intro fuel
  induction fuel with
  | zero =>
    intro l hl
    have h0 : l = [] := List.length_eq_zero.mp (Nat.le_zero.mp hl)
    subst h0
    rfl
  | succ n ih =>
    intro l hl
    cases l with
    | nil => rfl
    | cons e rest =>
      have h2 : ((e :: rest).drop 50).length ≤ n := by
        rw [List.length_drop]
        simp only [List.length_cons] at hl ⊢
        omega
      simp only [chunksAux]
      rw [List.flatten_cons, ih _ h2, List.take_append_drop]

lemma sum_range_getD_length (bs : List (List Str)) :
    ((List.range bs.length).map (fun j => (bs.getD j []).length)).sum =
      (bs.map List.length).sum := by
  induction bs with
  | nil => rfl
  | cons b t ih =>
    rw [List.length_cons, List.range_succ_eq_map, List.map_cons, List.map_map]
    simp only [Function.comp, List.getD_cons_zero, List.getD_cons_succ]
    rw [List.sum_cons, List.map_cons, List.sum_cons, ← ih]
    have hc : ((fun j => ((b :: t).getD j []).length) ∘ Nat.succ) =
        (fun j => (t.getD j []).length) := by
      funext j
      simp [Function.comp]
    rw [hc]

lemma collectInOrder_length (env : Env) (batches : List (List Str)) (fails : Nat → Bool)
    (order : List Nat) (hperm : order.Perm (List.range batches.length)) :
    (collectInOrder env batches fails order).length = (batches.map List.length).sum := by
  rw [collectInOrder, List.length_flatten, List.map_map]
  have hg : (List.length ∘ fun j =>
      let batch := batches.getD j []
      if fails j then List.replicate batch.length "BAD" else verify_email_batch env batch) =
      (fun j => (batches.getD j []).length) := by
    funext j
    by_cases hf : fails j = true
    · simp [hf, verify_email_batch]
    · simp [hf, verify_email_batch]
  rw [hg, List.Perm.sum_eq (hperm.map _)]
  exact sum_range_getD_length batches

lemma verdict_two_valued (env : Env) (e : Str) :
    (verify_email_comprehensive env e).1 = "200" ∨
      (verify_email_comprehensive env e).1 = "BAD" := by
  rw [verify_email_comprehensive]
  by_cases h : e = [] ∨ '@' ∉ e
  · rw [if_pos h]; right; rfl
  · rw [if_neg h]
    simp only [verifyCore]
    split_ifs <;> simp

lemma collectInOrder_mem {env : Env} {batches : List (List Str)} {fails : Nat → Bool}
    {order : List Nat} {v : String}
    (hv : v ∈ collectInOrder env batches fails order) : v = "200" ∨ v = "BAD" := by
  rw [collectInOrder, List.mem_flatten] at hv
  obtain ⟨blk, hblk, hvblk⟩ := hv
  rw [List.mem_map] at hblk
  obtain ⟨j, hj, hblk2⟩ := hblk
  subst hblk2
  by_cases hf : fails j = true
  · right
    simp only [hf, if_true] at hvblk
    exact List.eq_of_mem_replicate hvblk
  · rw [Bool.not_eq_true] at hf
    simp only [hf, Bool.false_eq_true, if_false, verify_email_batch] at hvblk
    obtain ⟨e, he, hve⟩ := List.mem_map.mp hvblk
    rw [← hve]
    exact verdict_two_valued env e

lemma annotateFrom_length (rs : List String) (k : Nat) (cs : List Record) :
    (annotateFrom rs k cs).length = cs.length := by
  induction cs generalizing k with
  | nil => rfl
  | cons c t ih => simp [annotateFrom, ih]

lemma annotateFrom_getD (rs : List String) (k : Nat) (cs : List Record) (i : Nat)
    (hi : i < cs.length) :
    (annotateFrom rs k cs).getD i [] =
      setField (cs.getD i []) "email_verification" (rs.getD (k + i) "BAD") := by
  induction cs generalizing k i with
  | nil => simp at hi
  | cons c t ih =>
    cases i with
    | zero => simp [annotateFrom]
    | succ n =>
      simp only [annotateFrom, List.getD_cons_succ]
      have hn : n < t.length := by simpa using hi
      have hk : k + 1 + n = k + (n + 1) := by omega
      rw [ih (k + 1) n hn, hk]

lemma getD_mem {l : List String} {i : Nat} (h : i < l.length) (d : String) :
    l.getD i d ∈ l := by
  induction l generalizing i with
  | nil => simp at h
  | cons a t ih =>
    cases i with
    | zero => simp
    | succ n =>
      rw [List.getD_cons_succ]
      exact List.mem_cons_of_mem _ (ih (by simpa using h))

lemma setField_fresh {r : Record} {k v : String} (h : hasField r k = false) :
    setField r k v = r ++ [(k, v)] := by
  rw [setField, if_neg (by simp [h])]

/-- C5 (evaluation at the failing input): on the empty candidate list the
run does not terminate normally: all_results stays empty, and the
success-rate log of line 240 computes verified_count / len(all_results)
with len(all_results) = 0, raising ZeroDivisionError — the error branch of
the model. -/
theorem c5_empty_run_divides_by_zero :
    verify_all_emails envAll (fun _ => false) [] [] = Except.error () := rfl

/-- C9: for every nonempty input and every completion order of the chunk
futures, the run returns normally; every input record is extended by exactly
one new field, email_verification, appended after all existing fields (which
are untouched, the record being otherwise passed through bit-identically),
and the new field's value is one of the two literal strings "200" and
"BAD". -/
theorem c9_record_augmentation (env : Env) (fails : Nat → Bool) (order : List Nat)
    (companies : List Record)
    (hperm : order.Perm (List.range
      (pyChunks (companies.map (fun c => ((getField c "email").getD "").toList))).length))
    (hne : companies ≠ []) :
    ∃ out cnts, verify_all_emails env fails order companies = Except.ok (out, cnts) ∧
      out.length = companies.length ∧
      ∀ i : Nat, i < companies.length →
        hasField (companies.getD i []) "email_verification" = false →
        ∃ v, out.getD i [] = companies.getD i [] ++ [("email_verification", v)] ∧
          (v = "200" ∨ v = "BAD") := by
  set emails := companies.map (fun c => ((getField c "email").getD "").toList) with hemails
  set batches := pyChunks emails with hbatches
  set rs := collectInOrder env batches fails order with hrs
  have hlen : rs.length = companies.length := by
    rw [hrs, collectInOrder_length env batches fails order hperm, ← List.length_flatten,
      hbatches, pyChunks, chunksAux_flatten _ _ (Nat.le_refl _), hemails, List.length_map]
  have hne2 : rs.length ≠ 0 := by
    rw [hlen]
    intro h0
    exact hne (List.length_eq_zero.mp h0)
  have hrun : verify_all_emails env fails order companies =
      Except.ok (annotateFrom rs 0 companies, rs.count "200", rs.count "BAD") := by
    simp only [verify_all_emails]
    rw [← hemails, ← hbatches, ← hrs, if_neg hne2]
  refine ⟨annotateFrom rs 0 companies, (rs.count "200", rs.count "BAD"), hrun, ?_, ?_⟩
  · rw [annotateFrom_length]
  · intro i hi hfresh
    refine ⟨rs.getD i "BAD", ?_, ?_⟩
    · rw [annotateFrom_getD rs 0 companies i hi, Nat.zero_add]
      exact setField_fresh hfresh
    · have hm : rs.getD i "BAD" ∈ collectInOrder env batches fails order := by
        rw [← hrs]
        exact getD_mem (by rw [hlen]; exact hi) "BAD"
      exact collectInOrder_mem hm

/-- Witness for C9: one record with a deliverable address in a healthy
world, a single chunk completing in order. -/
theorem c9_record_augmentation_witness :
    ∃ out cnts,
      verify_all_emails envAll (fun _ => false) [0] [[("email", "a@b.cd")]] =
        Except.ok (out, cnts) ∧
      out.length = ([[("email", "a@b.cd")]] : List Record).length ∧
      ∀ i : Nat, i < ([[("email", "a@b.cd")]] : List Record).length →
        hasField (([[("email", "a@b.cd")]] : List Record).getD i []) "email_verification" = false →
        ∃ v, out.getD i [] = ([[("email", "a@b.cd")]] : List Record).getD i [] ++
            [("email_verification", v)] ∧ (v = "200" ∨ v = "BAD") :=
  c9_record_augmentation envAll (fun _ => false) [0] [[("email", "a@b.cd")]]
    (by decide) (by decide)

/-! ## Out-of-order completion scenarios (C2, C6) -/

/-- A record whose address is deliverable in `envAll`. -/
def recGood : Record := [("name", "A"), ("email", "a@b.cd")]

/-- A record whose address fails the format check. -/
def recBadEmail : Record := [("email", "z")]

/-- 51 candidates: fifty deliverable addresses, then one malformed address
that lands alone in the second chunk of fifty. -/
def companiesC2 : List Record := List.replicate 50 recGood ++ [recBadEmail]

/-- 51 candidates, all deliverable. -/
def companiesC6 : List Record := List.replicate 50 recGood ++ [recGood]

/-- C2 (evaluation at the failing input): two chunks, the second one
completing first (completion order [1, 0]).  Record 0 — whose address
verifies to "200", second conjunct — is assigned "BAD": line 216 appends
chunk results to all_results in COMPLETION order while lines 227-229 index
all_results by input position, so nothing restores the input order and the
verdicts are misaligned. -/
theorem c2_out_of_order_misassigns :
    (verify_all_emails envAll (fun _ => false) [1, 0] companiesC2).map
      (fun out => getField (out.1.getD 0 []) "email_verification") =
      Except.ok (some "BAD") ∧
    (verify_email_comprehensive envAll ("a@b.cd".toList)).1 = "200" :=
  ⟨rfl, rfl⟩

/-- C6 (evaluation at the failing input): chunk 0's worker raises an
unhandled error and chunk 1 completes first.  Candidate 0 belongs to the
failed chunk yet receives chunk 1's verdict "200" instead of "BAD" (first
conjunct) — the fifty "BAD" fillers of line 224 are appended after chunk 1's
results and land on the wrong records.  The run does continue and still
yields one verdict per candidate (second conjunct). -/
theorem c6_failed_chunk_misassigned :
    (verify_all_emails envAll (fun j => j == 0) [1, 0] companiesC6).map
      (fun out => getField (out.1.getD 0 []) "email_verification") =
      Except.ok (some "200") ∧
    (verify_all_emails envAll (fun j => j == 0) [1, 0] companiesC6).map
      (fun out => out.1.length) = Except.ok 51 :=
  ⟨rfl, rfl⟩
